import Mathlib

/-!
Shallow embedding of the pfun-data pipeline (src/pfun_data/tools.py).

The repository is a two-stage batch pipeline: it extracts the members of a
zip archive to disk (`_extract_single_zipitem`, `extractFromZip`) and then
converts every discovered CSV file to a parquet file
(`_convert_single_csv_to_parquet`, `convertCsvToParquet`).

The embedding models:
  - paths as lists of components (`FPath`), with the `pathlib` operations
    the code uses (`joinpath` is list append, `parent.name`, `stem`);
  - the filesystem as a finite tree of directories and sized files
    (`FSNode`), with the primitives the code calls (`exists`, `stat`,
    `mkdir(parents=False, exist_ok=True)`, `Path.walk`, zip extraction,
    `pandas.read_csv` / `DataFrame.to_parquet`);
  - fault injection (`World`): whether a KeyboardInterrupt is delivered
    during a task body, whether the archive fails to open, and which
    members / CSV files are corrupt;
  - a task's observable result (`TaskResult`): the value it returns, the
    exception it lets escape, or the `sys.exit` it performs, together with
    the resulting filesystem and the log records it emitted.
-/

namespace PfunData

/-- A filesystem path, as its list of components.  `pathlib.joinpath` is
list append. -/
abbrev FPath := List String

/-- Python `Path.name`: the final path component (empty for the root). -/
def FPath.fname (p : FPath) : String := p.getLastD ""

/-- Python `Path.parent.name`: the name of the immediate parent directory
of the path. -/
def FPath.parentName (p : FPath) : String := p.dropLast.getLastD ""

/-- `FPath.under root p` holds when `p` lies strictly beneath the directory
`root` (at any depth). -/
def FPath.under (root p : FPath) : Bool :=
  (p.take root.length == root) && decide (root.length < p.length)

/-- Index of the last occurrence of the dot character in a list of
characters (`str.rfind` restricted to the dot). -/
def rfindDot : List Char → Option Nat
  | [] => none
  | c :: cs =>
    match rfindDot cs with
    | some i => some (i + 1)
    | none => if c = '.' then some 0 else none

/-- Python `PurePath.stem` applied to a file name: the name without its
final suffix.  CPython takes the last dot at an index `i` with
`0 < i < len(name) - 1`; otherwise the suffix is empty and the stem is the
whole name. -/
def stemOfName (name : String) : String :=
  let cs := name.data
  match rfindDot cs with
  | none => name
  | some i => if 0 < i && decide (i < cs.length - 1) then String.mk (cs.take i) else name

/-- A file tree: a file carries its byte size, a directory carries its
named entries. -/
inductive FSNode where
  | file (size : Nat)
  | dir (entries : List (String × FSNode))

/-- Look up the node reached from `t` by following path `p`. -/
def FSNode.lookup : FSNode → FPath → Option FSNode
  | t, [] => some t
  | .dir es, c :: rest =>
    match es.find? (fun e => e.1 == c) with
    | some e => e.2.lookup rest
    | none => none
  | .file _, _ :: _ => none

/-- Python `Path.exists()`: true when the path denotes a file or a
directory. -/
def FSNode.pathExists (t : FSNode) (p : FPath) : Bool := (t.lookup p).isSome

/-- The Python exceptions the modelled primitives can raise. -/
inductive PyExc where
  | fileNotFound (p : FPath)
  | fileExistsErr (p : FPath)
  | notADirectory (p : FPath)
  | badZipFile (p : FPath)
  | parseError (p : FPath)
deriving Repr, DecidableEq

/-- Python `Path.stat().st_size`: raises `FileNotFoundError` on a missing
path; a directory reports size 0. -/
def FSNode.statSize (t : FSNode) (p : FPath) : Except PyExc Nat :=
  match t.lookup p with
  | some (.file sz) => .ok sz
  | some (.dir _) => .ok 0
  | none => .error (.fileNotFound p)

/-- Insert or replace the entry named `c` in a directory body. -/
def setEntry (es : List (String × FSNode)) (c : String) (v : FSNode) :
    List (String × FSNode) :=
  match es with
  | [] => [(c, v)]
  | e :: rest => if e.1 == c then (c, v) :: rest else e :: setEntry rest c v

/-- Place node `v` at path `p` under `t`, creating the intermediate
directories along `p` as needed (the behaviour of `ZipFile.extract`).
Descending below an existing file leaves the tree unchanged (the real call
would raise; no claim exercises that corner). -/
def FSNode.setAt : FSNode → FPath → FSNode → FSNode
  | _, [], v => v
  | .dir es, c :: rest, v =>
    let child := match es.find? (fun e => e.1 == c) with
      | some e => e.2
      | none => .dir []
    .dir (setEntry es c (child.setAt rest v))
  | .file sz, _ :: _, _ => .file sz

/-- Python `Path.mkdir(parents=False, exist_ok=True)` as called on the
parquet output root: succeeds when the directory already exists, creates it
when its parent exists, raises `FileNotFoundError` when the parent is
missing. -/
def FSNode.mkdirNoParents (t : FSNode) (p : FPath) : Except PyExc FSNode :=
  match p with
  | [] => .ok t
  | _ :: _ =>
    match t.lookup p.dropLast with
    | none => .error (.fileNotFound p.dropLast)
    | some (.file _) => .error (.notADirectory p.dropLast)
    | some (.dir _) =>
      match t.lookup p with
      | some (.dir _) => .ok t
      | some (.file _) => .error (.fileExistsErr p)
      | none => .ok (t.setAt p (.dir []))

/-- Writing a file at `p` WITHOUT creating parent directories — the
behaviour of `pandas.DataFrame.to_parquet` on a local path: if the parent
directory does not exist the write raises `FileNotFoundError`. -/
def FSNode.writeNoMkdir (t : FSNode) (p : FPath) (sz : Nat) : Except PyExc FSNode :=
  match t.lookup p.dropLast with
  | some (.dir _) => .ok (t.setAt p (.file sz))
  | some (.file _) => .error (.notADirectory p.dropLast)
  | none => .error (.fileNotFound p.dropLast)

mutual

/-- Well-formed tree: every directory has pairwise distinct entry names. -/
def FSNode.wf : FSNode → Bool
  | .file _ => true
  | .dir es => decide ((es.map (fun e => e.1)).Nodup) && wfEntries es

/-- Well-formedness of a directory body. -/
def wfEntries : List (String × FSNode) → Bool
  | [] => true
  | e :: rest => e.2.wf && wfEntries rest

end

mutual

/-- Python `Path.walk` (top-down), restricted to the full file paths it
yields: for each visited directory, first the files directly inside it,
then the files found by walking each subdirectory.  `cur` is the path of
the node being visited. -/
def FSNode.walkFiles : FSNode → FPath → List FPath
  | .file _, _ => []
  | .dir es, cur =>
    (es.filterMap (fun e =>
      match e.2 with
      | .file _ => some (cur ++ [e.1])
      | .dir _ => none))
    ++ walkSubdirs es cur

/-- Walk each subdirectory entry of a directory body in order. -/
def walkSubdirs : List (String × FSNode) → FPath → List FPath
  | [], _ => []
  | (c, .dir es) :: rest, cur =>
    FSNode.walkFiles (.dir es) (cur ++ [c]) ++ walkSubdirs rest cur
  | (_, .file _) :: rest, cur => walkSubdirs rest cur

end

/-- `csv_path.walk()` started at path `root`: walking a missing path (or a
path that is a plain file) yields nothing, because `Path.walk` is created
with `on_error=None`, which swallows the initial scandir error. -/
def FSNode.walkFrom (t : FSNode) (root : FPath) : List FPath :=
  match t.lookup root with
  | some n => n.walkFiles root
  | none => []

/-- One member of the zip archive's inventory, as `zipfile.ZipInfo`
exposes it to this code: its stored relative name and its recorded
uncompressed size. -/
structure ZipInfo where
  filename : FPath
  file_size : Nat
deriving Repr, DecidableEq

/-- Fault injection for one run: whether a KeyboardInterrupt is delivered
during a task body (the handler in the code wraps the whole body), whether
opening the archive fails, which archive members are corrupt (extraction
of them raises), and which CSV files fail to parse. -/
structure World where
  interrupted : Bool
  zipOpenFails : Bool
  corruptMembers : List FPath
  unreadableCsvs : List FPath
deriving Repr, DecidableEq

/-- One log record, by the call site in tools.py that emits it. -/
inductive LogEvent where
  | skipExistingFile (dest : FPath)
  | extracting (name : FPath)
  | extractionInterrupted
  | errorExtracting (e : PyExc)
  | doneExtracting
  | convertingCsvs
  | skipExistingParquet (dest : FPath)
  | creatingParquet (dest : FPath)
  | conversionInterrupted
  | errorConverting (e : PyExc)
deriving Repr, DecidableEq

/-- The observable result of running one worker-task function:
`returned v fs logs` — the function returned value `v`, leaving the
filesystem in state `fs`, having emitted `logs`; `raised e fs logs` — an
exception escaped the function's boundary; `exited code logs` — the
function called `sys.exit code`. -/
inductive TaskResult (α : Type) where
  | returned (v : α) (fs : FSNode) (logs : List LogEvent)
  | raised (e : PyExc) (fs : FSNode) (logs : List LogEvent)
  | exited (code : Nat) (logs : List LogEvent)

/-- The filesystem after a task result (an exit leaves `fs` as it was when
the interrupt fired, which in this model is the task's input state). -/
def TaskResult.nextFS (fs : FSNode) : TaskResult α → FSNode
  | .returned _ fs2 _ => fs2
  | .raised _ fs2 _ => fs2
  | .exited _ _ => fs

/-- `ZipFile.extract(info_item, path=output_path)`: writes a file of the
member's size at `output_path / filename`, creating intermediate
directories, overwriting any existing file. -/
def zipExtract (fs : FSNode) (output_path : FPath) (item : ZipInfo) : FSNode :=
  fs.setAt (output_path ++ item.filename) (.file item.file_size)

/-- `_extract_single_zipitem(zip_path, info_item, output_path,
skip_existing)` from tools.py, line for line:

  - the whole body is wrapped in `try ... except KeyboardInterrupt:`
    which logs a warning and calls `sys.exit(0)`;
  - `full_output_filepath = Path(output_path).joinpath(info_item.filename)`;
  - the skip check is `all([full_output_filepath.exists(), skip_existing
    is True, full_output_filepath.stat().st_size == info_item.file_size])`.
    The list literal evaluates ALL three elements before `all` runs, so
    `stat()` is called even when `exists()` is false and raises
    `FileNotFoundError` on a missing destination;
  - on a taken skip the function logs and returns `True`;
  - otherwise it logs, re-opens the archive and extracts the one member
    (returning `None`); opening a bad archive or extracting a corrupt
    member raises. -/
def _extract_single_zipitem (zip_path : FPath) (info_item : ZipInfo)
    (output_path : FPath) (skip_existing : Bool) (fs : FSNode) (w : World) :
    TaskResult (Option Bool) :=
  if w.interrupted then
    .exited 0 [.extractionInterrupted]
  else
    let full_output_filepath := output_path ++ info_item.filename
    let destExists := fs.pathExists full_output_filepath
    match fs.statSize full_output_filepath with
    | .error e => .raised e fs []
    | .ok sz =>
      if destExists && skip_existing && (sz == info_item.file_size) then
        .returned (some true) fs [.skipExistingFile full_output_filepath]
      else if w.zipOpenFails then
        .raised (.badZipFile zip_path) fs [.extracting info_item.filename]
      else if w.corruptMembers.contains info_item.filename then
        .raised (.parseError info_item.filename) fs [.extracting info_item.filename]
      else
        .returned none (zipExtract fs output_path info_item)
          [.extracting info_item.filename]

/-- The aggregate result of one stage call (`extractFromZip` or
`convertCsvToParquet`): it ran to completion, or an exception escaped the
stage itself, or the process exited. -/
inductive StageResult where
  | completed (fs : FSNode) (logs : List LogEvent)
  | stageRaised (e : PyExc) (fs : FSNode) (logs : List LogEvent)
  | stageExited (code : Nat) (fs : FSNode) (logs : List LogEvent)

/-- The worker-pool loop of `extractFromZip`: one task per inventory item;
a task's escaped exception surfaces as `future.exception()` and is logged
with `logging.error` — the loop then continues with the remaining items; a
process exit ends everything.  After the last task the stage logs
"...done extracting zip.". -/
def extractLoop (zip_path output_path : FPath) (skip_existing : Bool)
    (w : World) : List ZipInfo → FSNode → List LogEvent → StageResult
  | [], fs, logs => .completed fs (logs ++ [.doneExtracting])
  | item :: rest, fs, logs =>
    match _extract_single_zipitem zip_path item output_path skip_existing fs w with
    | .returned _ fs2 l2 =>
      extractLoop zip_path output_path skip_existing w rest fs2 (logs ++ l2)
    | .raised e fs2 l2 =>
      extractLoop zip_path output_path skip_existing w rest fs2
        (logs ++ l2 ++ [.errorExtracting e])
    | .exited code l2 => .stageExited code fs (logs ++ l2)

/-- `extractFromZip(zip_path, output_path, skip_existing)`: reads the full
inventory (fatal for the stage if the archive cannot be opened), then runs
one `_extract_single_zipitem` task per member.  `archive` is the inventory
stored in the zip file at `zip_path`. -/
def extractFromZip (zip_path : FPath) (archive : List ZipInfo)
    (output_path : FPath) (skip_existing : Bool) (fs : FSNode) (w : World) :
    StageResult :=
  if w.zipOpenFails then .stageRaised (.badZipFile zip_path) fs []
  else extractLoop zip_path output_path skip_existing w archive fs []

/-- The destination path computed by `_convert_single_csv_to_parquet`:
`parquet_path.joinpath(csv_file.parent.name, csv_file.stem + ".parquet")`
(tools.py line 93). -/
def convDest (parquet_path csv_file : FPath) : FPath :=
  parquet_path ++ [csv_file.parentName, stemOfName csv_file.fname ++ ".parquet"]

/-- `pandas.read_csv(csv_file)`: raises `FileNotFoundError` on a missing
file, a parse error on a corrupt one, and otherwise yields the in-memory
table (modelled by the source's size). -/
def readCsv (fs : FSNode) (w : World) (csv_file : FPath) : Except PyExc Nat :=
  match fs.lookup csv_file with
  | some (.file sz) =>
    if w.unreadableCsvs.contains csv_file then .error (.parseError csv_file)
    else .ok sz
  | some (.dir _) => .error (.notADirectory csv_file)
  | none => .error (.fileNotFound csv_file)

/-- `_convert_single_csv_to_parquet(csv_file, parquet_path, skip_existing)`
from tools.py, line for line:

  - the whole body is wrapped in `try ... except KeyboardInterrupt:`
    which logs a warning and calls `sys.exit(0)`;
  - `parquet_file = parquet_path.joinpath(csv_file.parent.name,
    csv_file.stem + ".parquet")`;
  - the skip check is `all([skip_existing is True, parquet_file.exists()])`
    — plain existence, no size or content comparison;
  - otherwise it logs, fully parses the source with `read_csv` and writes
    it with `to_parquet` (which does NOT create parent directories). -/
def _convert_single_csv_to_parquet (csv_file parquet_path : FPath)
    (skip_existing : Bool) (fs : FSNode) (w : World) : TaskResult Unit :=
  if w.interrupted then
    .exited 0 [.conversionInterrupted]
  else
    let parquet_file := convDest parquet_path csv_file
    if skip_existing && fs.pathExists parquet_file then
      .returned () fs [.skipExistingParquet parquet_file]
    else
      match readCsv fs w csv_file with
      | .error e => .raised e fs [.creatingParquet parquet_file]
      | .ok df =>
        match fs.writeNoMkdir parquet_file df with
        | .error e => .raised e fs [.creatingParquet parquet_file]
        | .ok fs2 => .returned () fs2 [.creatingParquet parquet_file]

/-- The file-discovery list comprehension of `convertCsvToParquet`:
`[root.joinpath(file) for root, _, files in csv_path.walk() for file in
files if file.endswith(".csv")]`. -/
def discoverCsvFiles (fs : FSNode) (csv_path : FPath) : List FPath :=
  (fs.walkFrom csv_path).filter (fun p => p.fname.endsWith ".csv")

/-- The worker-pool loop of `convertCsvToParquet`: one task per discovered
file; a task's escaped exception is logged with `logging.error` and the
loop continues. -/
def convertLoop (parquet_path : FPath) (skip_existing : Bool) (w : World) :
    List FPath → FSNode → List LogEvent → StageResult
  | [], fs, logs => .completed fs logs
  | f :: rest, fs, logs =>
    match _convert_single_csv_to_parquet f parquet_path skip_existing fs w with
    | .returned _ fs2 l2 =>
      convertLoop parquet_path skip_existing w rest fs2 (logs ++ l2)
    | .raised e fs2 l2 =>
      convertLoop parquet_path skip_existing w rest fs2
        (logs ++ l2 ++ [.errorConverting e])
    | .exited code l2 => .stageExited code fs (logs ++ l2)

/-- `convertCsvToParquet(csv_path, parquet_path, skip_existing)`: logs,
creates the output root with `mkdir(parents=False, exist_ok=True)` (which
raises when the root's parent directory is missing, aborting the stage
before any discovery or task submission), discovers the CSV files, then
runs one `_convert_single_csv_to_parquet` task per file. -/
def convertCsvToParquet (csv_path parquet_path : FPath) (skip_existing : Bool)
    (fs : FSNode) (w : World) : StageResult :=
  match fs.mkdirNoParents parquet_path with
  | .error e => .stageRaised e fs [.convertingCsvs]
  | .ok fs1 =>
    convertLoop parquet_path skip_existing w (discoverCsvFiles fs1 csv_path)
      fs1 [.convertingCsvs]

/-- The per-item task results of the extraction stage, in submission
order, each task seeing the filesystem state its predecessors left. -/
def extractOutcomes (zip_path output_path : FPath) (skip_existing : Bool)
    (w : World) : List ZipInfo → FSNode → List (TaskResult (Option Bool))
  | [], _ => []
  | item :: rest, fs =>
    let r := _extract_single_zipitem zip_path item output_path skip_existing fs w
    r :: extractOutcomes zip_path output_path skip_existing w rest (r.nextFS fs)

/-- The filesystem state after the extraction stage has run its tasks. -/
def extractFinalFS (zip_path output_path : FPath) (skip_existing : Bool)
    (w : World) : List ZipInfo → FSNode → FSNode
  | [], fs => fs
  | item :: rest, fs =>
    extractFinalFS zip_path output_path skip_existing w rest
      ((_extract_single_zipitem zip_path item output_path skip_existing fs w).nextFS fs)

/-- The log records one extraction task contributes to the stage log: its
own records, followed by the stage's `logging.error` record when an
exception escaped the task. -/
def extractTaskLog : TaskResult (Option Bool) → List LogEvent
  | .returned _ _ l => l
  | .raised e _ l => l ++ [.errorExtracting e]
  | .exited _ l => l

/-- The per-item task results of the conversion stage, in submission
order. -/
def convertOutcomes (parquet_path : FPath) (skip_existing : Bool)
    (w : World) : List FPath → FSNode → List (TaskResult Unit)
  | [], _ => []
  | f :: rest, fs =>
    let r := _convert_single_csv_to_parquet f parquet_path skip_existing fs w
    r :: convertOutcomes parquet_path skip_existing w rest (r.nextFS fs)

/-- The filesystem state after the conversion stage has run its tasks. -/
def convertFinalFS (parquet_path : FPath) (skip_existing : Bool)
    (w : World) : List FPath → FSNode → FSNode
  | [], fs => fs
  | f :: rest, fs =>
    convertFinalFS parquet_path skip_existing w rest
      ((_convert_single_csv_to_parquet f parquet_path skip_existing fs w).nextFS fs)

/-- The log records one conversion task contributes to the stage log. -/
def convertTaskLog : TaskResult Unit → List LogEvent
  | .returned _ _ l => l
  | .raised e _ l => l ++ [.errorConverting e]
  | .exited _ l => l

/-- An extraction task can only call `sys.exit` when a KeyboardInterrupt
was delivered to it. -/
theorem extract_task_exited_interrupted {zp : FPath} {item : ZipInfo}
    {op : FPath} {sk : Bool} {fs : FSNode} {w : World} {c : Nat}
    {l : List LogEvent}
    (hr : _extract_single_zipitem zp item op sk fs w = .exited c l) :
    w.interrupted = true := by
  cases hw : w.interrupted with
  | true => rfl
  | false =>
    unfold _extract_single_zipitem at hr
    rw [hw] at hr
    simp only [Bool.false_eq_true, if_false] at hr
    split at hr
    · exact absurd hr (by simp)
    · split at hr
      · exact absurd hr (by simp)
      · split at hr
        · exact absurd hr (by simp)
        · split at hr
          · exact absurd hr (by simp)
          · exact absurd hr (by simp)

/-- A conversion task can only call `sys.exit` when a KeyboardInterrupt
was delivered to it. -/
theorem convert_task_exited_interrupted {f pp : FPath} {sk : Bool}
    {fs : FSNode} {w : World} {c : Nat} {l : List LogEvent}
    (hr : _convert_single_csv_to_parquet f pp sk fs w = .exited c l) :
    w.interrupted = true := by
  cases hw : w.interrupted with
  | true => rfl
  | false =>
    unfold _convert_single_csv_to_parquet at hr
    rw [hw] at hr
    simp only [Bool.false_eq_true, if_false] at hr
    split at hr
    · exact absurd hr (by simp)
    · split at hr
      · exact absurd hr (by simp)
      · split at hr
        · exact absurd hr (by simp)
        · exact absurd hr (by simp)

/-- Without an interrupt, the extraction-stage loop runs every task to an
outcome: it completes (never raises past the stage, never exits), its
final filesystem is the tasks' composition, and its log is the input log
followed by each task's contribution in order, then the closing record. -/
theorem extractLoop_eq (zp op : FPath) (sk : Bool) (w : World)
    (h : w.interrupted = false) (items : List ZipInfo) :
    ∀ (fs : FSNode) (logs : List LogEvent),
    extractLoop zp op sk w items fs logs =
      .completed (extractFinalFS zp op sk w items fs)
        (logs ++ ((extractOutcomes zp op sk w items fs).map extractTaskLog).flatten
          ++ [.doneExtracting]) := by
  induction items with
  | nil =>
    intro fs logs
    simp [extractLoop, extractFinalFS, extractOutcomes]
  | cons item rest ih =>
    intro fs logs
    rw [extractLoop]
    cases hr : _extract_single_zipitem zp item op sk fs w with
    | returned v fs2 l2 =>
      simp [extractOutcomes, extractFinalFS, extractTaskLog, hr, TaskResult.nextFS, ih]
    | raised e fs2 l2 =>
      simp [extractOutcomes, extractFinalFS, extractTaskLog, hr, TaskResult.nextFS, ih]
    | exited c l2 =>
      exact absurd (extract_task_exited_interrupted hr) (by simp [h])

/-- Without an interrupt, the conversion-stage loop runs every task to an
outcome, completing with the composed filesystem and the per-task logs. -/
theorem convertLoop_eq (pp : FPath) (sk : Bool) (w : World)
    (h : w.interrupted = false) (files : List FPath) :
    ∀ (fs : FSNode) (logs : List LogEvent),
    convertLoop pp sk w files fs logs =
      .completed (convertFinalFS pp sk w files fs)
        (logs ++ ((convertOutcomes pp sk w files fs).map convertTaskLog).flatten) := by
  induction files with
  | nil =>
    intro fs logs
    simp [convertLoop, convertFinalFS, convertOutcomes]
  | cons f rest ih =>
    intro fs logs
    rw [convertLoop]
    cases hr : _convert_single_csv_to_parquet f pp sk fs w with
    | returned v fs2 l2 =>
      simp [convertOutcomes, convertFinalFS, convertTaskLog, hr, TaskResult.nextFS, ih]
    | raised e fs2 l2 =>
      simp [convertOutcomes, convertFinalFS, convertTaskLog, hr, TaskResult.nextFS, ih]
    | exited c l2 =>
      exact absurd (convert_task_exited_interrupted hr) (by simp [h])

/-- Looking up a concatenated path descends through the first part, then
the second. -/
theorem FSNode.lookup_append (t : FSNode) (p q : FPath) :
    t.lookup (p ++ q) = (t.lookup p).bind (fun n => n.lookup q) := by
  induction p generalizing t with
  | nil => simp [FSNode.lookup]
  | cons c rest ih =>
    cases t with
    | file sz => simp [FSNode.lookup]
    | dir es =>
      simp only [List.cons_append, FSNode.lookup]
      cases es.find? (fun e => e.1 == c) with
      | none => simp
      | some e => simp [ih]

/-- C1: the skip branch of `_extract_single_zipitem` behaves as claimed
only when the destination exists; when the destination does NOT exist the
function does not extract the member — `all([...])` evaluates
`full_output_filepath.stat()` eagerly, which raises `FileNotFoundError`,
so the task fails and the destination is still missing afterwards.  This
contradicts the claim's "in every other case it re-opens the archive and
extracts exactly that one member". -/
theorem c1_extract_raises_on_missing_destination :
    _extract_single_zipitem ["archive.zip"] ⟨["tableA", "part1.csv"], 5⟩ ["out"]
        true (.dir [("out", .dir [])]) ⟨false, false, [], []⟩ =
      .raised (.fileNotFound ["out", "tableA", "part1.csv"])
        (.dir [("out", .dir [])]) [] ∧
    FSNode.pathExists (.dir [("out", .dir [])]) ["out", "tableA", "part1.csv"]
      = false :=
  ⟨rfl, rfl⟩

/-- C2: with `skip_existing = false` and a destination that does not yet
exist, `_extract_single_zipitem` still evaluates `stat()` on the missing
destination (the skip-check list is built eagerly), raises
`FileNotFoundError`, and extracts nothing — contradicting the claim that
`skip_existing=false` always re-extracts regardless of destination
state. -/
theorem c2_noskip_extract_raises_on_missing_destination :
    _extract_single_zipitem ["data.zip"] ⟨["t", "a.csv"], 7⟩ ["csvs"]
        false (.dir [("csvs", .dir [])]) ⟨false, false, [], []⟩ =
      .raised (.fileNotFound ["csvs", "t", "a.csv"])
        (.dir [("csvs", .dir [])]) [] ∧
    FSNode.pathExists (.dir [("csvs", .dir [])]) ["csvs", "t", "a.csv"]
      = false :=
  ⟨rfl, rfl⟩

/-- C6: a task during which a KeyboardInterrupt is raised logs a warning
and calls `sys.exit(0)` — it neither returns an outcome nor lets the
interrupt escape as an ordinary task failure — and a stage whose task
exits terminates as a whole instead of continuing with further items. -/
theorem c6_interrupt_exits_process (w : World) (h : w.interrupted = true)
    (hz : w.zipOpenFails = false) (zp op f pp : FPath) (item : ZipInfo)
    (rest : List ZipInfo) (sk : Bool) (fs : FSNode) :
    _extract_single_zipitem zp item op sk fs w =
      .exited 0 [.extractionInterrupted] ∧
    _convert_single_csv_to_parquet f pp sk fs w =
      .exited 0 [.conversionInterrupted] ∧
    extractFromZip zp (item :: rest) op sk fs w =
      .stageExited 0 fs [.extractionInterrupted] := by
  refine ⟨?_, ?_, ?_⟩
  · simp [_extract_single_zipitem, h]
  · simp [_convert_single_csv_to_parquet, h]
  · simp [extractFromZip, extractLoop, _extract_single_zipitem, h, hz]

/-- C6 witness: a concrete interrupted task. -/
theorem c6_interrupt_exits_process_witness :
    _extract_single_zipitem ["z.zip"] ⟨["m.csv"], 2⟩ ["o"] true (.dir [])
        ⟨true, false, [], []⟩ =
      .exited 0 [.extractionInterrupted] ∧
    _convert_single_csv_to_parquet ["a.csv"] ["p"] true (.dir [])
        ⟨true, false, [], []⟩ =
      .exited 0 [.conversionInterrupted] ∧
    extractFromZip ["z.zip"] [⟨["m.csv"], 2⟩] ["o"] true (.dir [])
        ⟨true, false, [], []⟩ =
      .stageExited 0 (.dir []) [.extractionInterrupted] :=
  c6_interrupt_exits_process ⟨true, false, [], []⟩ rfl rfl
    ["z.zip"] ["o"] ["a.csv"] ["p"] ⟨["m.csv"], 2⟩ [] true (.dir [])

/-- C7: `_convert_single_csv_to_parquet` takes the skip branch — returning
with the filesystem untouched, no parsing and no writing, only the skip
log record — exactly when `skip_existing` is true and the destination
exists; the check is existence alone (the equivalence holds for every
filesystem, whatever the sizes involved). -/
theorem c7_convert_skip_iff_exists (f pp : FPath) (sk : Bool) (fs : FSNode)
    (w : World) (h : w.interrupted = false) :
    (_convert_single_csv_to_parquet f pp sk fs w =
        .returned () fs [.skipExistingParquet (convDest pp f)])
      ↔ (sk = true ∧ fs.pathExists (convDest pp f) = true) := by
  unfold _convert_single_csv_to_parquet
  rw [h]
  simp only [Bool.false_eq_true, if_false]
  by_cases hc : (sk && fs.pathExists (convDest pp f)) = true
  · rw [if_pos hc]
    rw [Bool.and_eq_true] at hc
    simp [hc]
  · rw [if_neg hc]
    rw [Bool.and_eq_true] at hc
    constructor
    · intro hr
      exfalso
      split at hr
      · simp at hr
      · split at hr
        · simp at hr
        · simp at hr
    · intro hp
      exact absurd hp hc

/-- C7 witness: a destination that exists (with whatever size) is skipped;
the equivalence is applied at a concrete input. -/
theorem c7_convert_skip_iff_exists_witness :
    (_convert_single_csv_to_parquet ["data", "t", "a.csv"] ["out"] true
        (.dir [("out", .dir [("t", .dir [("a.parquet", .file 3)])])])
        ⟨false, false, [], []⟩ =
      .returned () (.dir [("out", .dir [("t", .dir [("a.parquet", .file 3)])])])
        [.skipExistingParquet (convDest ["out"] ["data", "t", "a.csv"])])
      ↔ (true = true ∧
          FSNode.pathExists
            (.dir [("out", .dir [("t", .dir [("a.parquet", .file 3)])])])
            (convDest ["out"] ["data", "t", "a.csv"]) = true) :=
  c7_convert_skip_iff_exists ["data", "t", "a.csv"] ["out"] true
    (.dir [("out", .dir [("t", .dir [("a.parquet", .file 3)])])])
    ⟨false, false, [], []⟩ rfl

/-- C10: when the parent directory of the parquet output root is missing,
`convertCsvToParquet` raises out of `mkdir(parents=False, exist_ok=True)`
before any file discovery or task submission: the stage result carries
only the opening log record and an unchanged filesystem — no per-item
outcome exists. -/
theorem c10_missing_parent_aborts_conversion_stage (cp pp : FPath)
    (sk : Bool) (fs : FSNode) (w : World) (hne : pp ≠ [])
    (hpar : fs.lookup pp.dropLast = none) :
    convertCsvToParquet cp pp sk fs w =
      .stageRaised (.fileNotFound pp.dropLast) fs [.convertingCsvs] := by
  cases pp with
  | nil => exact absurd rfl hne
  | cons c rest =>
    unfold convertCsvToParquet FSNode.mkdirNoParents
    simp [hpar]

/-- C10 witness: output root `a/b` with no directory `a` on disk. -/
theorem c10_missing_parent_aborts_conversion_stage_witness :
    convertCsvToParquet ["csvs"] ["a", "b"] true (.dir []) ⟨false, false, [], []⟩ =
      .stageRaised (.fileNotFound ["a"]) (.dir []) [.convertingCsvs] :=
  c10_missing_parent_aborts_conversion_stage ["csvs"] ["a", "b"] true (.dir [])
    ⟨false, false, [], []⟩ (by decide) rfl

/-- C3 counterexample: an ordinary I/O fault (the source CSV is missing)
DOES propagate as a raised exception past the Single-File Converter's own
boundary — the function's handler catches only KeyboardInterrupt, so the
fault is not captured inside the function. -/
theorem c3_counterexample_fault_escapes_function :
    _convert_single_csv_to_parquet ["csvs", "missing.csv"] ["pq"] true
        (.dir [("csvs", .dir []), ("pq", .dir [])]) ⟨false, false, [], []⟩ =
      .raised (.fileNotFound ["csvs", "missing.csv"])
        (.dir [("csvs", .dir []), ("pq", .dir [])])
        [.creatingParquet ["pq", "csvs", "missing.parquet"]] := rfl

/-- C3 (amended): an ordinary I/O, parse or write fault escapes the
single-item function as a raised exception, but the owning stage captures
it at the task boundary (`future.exception()`), logs it as that task's
failed outcome, and completes the stage without raising. -/
theorem c3_fault_captured_at_stage_boundary (zp op pp : FPath) (sk : Bool)
    (w : World) (item : ZipInfo) (f : FPath) (fsE fsC : FSNode)
    (e1 e2 : PyExc) (fs1 fs2 : FSNode) (l1 l2 : List LogEvent)
    (hr1 : _extract_single_zipitem zp item op sk fsE w = .raised e1 fs1 l1)
    (hr2 : _convert_single_csv_to_parquet f pp sk fsC w = .raised e2 fs2 l2) :
    extractLoop zp op sk w [item] fsE [] =
      .completed fs1 (l1 ++ [.errorExtracting e1, .doneExtracting]) ∧
    convertLoop pp sk w [f] fsC [] =
      .completed fs2 (l2 ++ [.errorConverting e2]) := by
  constructor
  · simp [extractLoop, hr1]
  · simp [convertLoop, hr2]

/-- C3 witness: a concrete raising extraction task and a concrete raising
conversion task, both absorbed by their stage loops. -/
theorem c3_fault_captured_at_stage_boundary_witness :
    extractLoop ["z.zip"] ["o"] false ⟨false, false, [], []⟩ [⟨["m.csv"], 2⟩]
        (.dir [("o", .dir [])]) [] =
      .completed (.dir [("o", .dir [])])
        ([] ++ [.errorExtracting (.fileNotFound ["o", "m.csv"]),
          .doneExtracting]) ∧
    convertLoop ["p"] false ⟨false, false, [], []⟩ [["c", "missing.csv"]]
        (.dir [("c", .dir []), ("p", .dir [])]) [] =
      .completed (.dir [("c", .dir []), ("p", .dir [])])
        ([.creatingParquet ["p", "c", "missing.parquet"]] ++
          [.errorConverting (.fileNotFound ["c", "missing.csv"])]) :=
  c3_fault_captured_at_stage_boundary ["z.zip"] ["o"] ["p"] false
    ⟨false, false, [], []⟩ ⟨["m.csv"], 2⟩ ["c", "missing.csv"]
    (.dir [("o", .dir [])]) (.dir [("c", .dir []), ("p", .dir [])])
    (.fileNotFound ["o", "m.csv"]) (.fileNotFound ["c", "missing.csv"])
    (.dir [("o", .dir [])]) (.dir [("c", .dir []), ("p", .dir [])])
    [] [.creatingParquet ["p", "c", "missing.parquet"]]
    rfl rfl

/-- The last dot of `l ++ ".csv"` sits exactly at index `l.length`. -/
theorem rfindDot_append_csv (l : List Char) :
    rfindDot (l ++ ['.', 'c', 's', 'v']) = some l.length := by
  induction l with
  | nil => rfl
  | cons c cs ih => simp [rfindDot, ih]

/-- `Path(base + ".csv").stem = base` for any nonempty base name. -/
theorem stemOfName_append_csv (base : String) (hb : base ≠ "") :
    stemOfName (base ++ ".csv") = base := by
  have hd : (base ++ ".csv").data = base.data ++ ['.', 'c', 's', 'v'] := by
    rw [String.data_append]
  have hlen : 0 < base.data.length := by
    rcases base with ⟨l⟩
    cases l with
    | nil => exact absurd rfl hb
    | cons a as => simp
  have hcond : (decide (0 < base.data.length) &&
      decide (base.data.length <
        (base.data ++ ['.', 'c', 's', 'v']).length - 1)) = true := by
    simp only [Bool.and_eq_true, decide_eq_true_eq, List.length_append]
    exact ⟨hlen, by simp⟩
  unfold stemOfName
  rw [hd]
  simp only [rfindDot_append_csv]
  rw [if_pos hcond, List.take_left]

/-- C8: the conversion destination is the output root, then exactly the
source's immediate parent directory name, then the source's base name
with its `.csv` suffix replaced by `.parquet` — whatever deeper ancestry
the source path has is flattened away. -/
theorem c8_conversion_destination_mirrors_one_parent (out anc : FPath)
    (d base : String) (hb : base ≠ "") :
    convDest out (anc ++ [d, base ++ ".csv"]) = out ++ [d, base ++ ".parquet"] := by
  have h2 : anc ++ [d, base ++ ".csv"] = (anc ++ [d]) ++ [base ++ ".csv"] := by
    simp
  unfold convDest FPath.parentName FPath.fname
  rw [h2, List.dropLast_concat, List.getLastD_concat, List.getLastD_concat,
    stemOfName_append_csv base hb]

/-- C8 witness: `<root>/tableA/part1.csv` maps to
`<output_root>/tableA/part1.parquet`. -/
theorem c8_conversion_destination_mirrors_one_parent_witness :
    convDest ["pq"] (["root"] ++ ["tableA", "part1" ++ ".csv"]) =
      ["pq"] ++ ["tableA", "part1" ++ ".parquet"] :=
  c8_conversion_destination_mirrors_one_parent ["pq"] ["root"] "tableA"
    "part1" (by decide)

/-- C4 counterexample: the Single-File Converter does NOT create the
destination's parent directories — with the mirrored subfolder
`pq/tableA` absent under the existing output root `pq`, the write faults
with `FileNotFoundError` instead of succeeding, leaving the filesystem
unchanged. -/
theorem c4_counterexample_write_fails_without_parent_dir :
    _convert_single_csv_to_parquet ["csvs", "tableA", "part1.csv"] ["pq"] false
        (.dir [("csvs", .dir [("tableA", .dir [("part1.csv", .file 3)])]),
          ("pq", .dir [])])
        ⟨false, false, [], []⟩ =
      .raised (.fileNotFound ["pq", "tableA"])
        (.dir [("csvs", .dir [("tableA", .dir [("part1.csv", .file 3)])]),
          ("pq", .dir [])])
        [.creatingParquet ["pq", "tableA", "part1.parquet"]] := rfl

/-- C4 (amended): when the skip branch is not taken and the destination's
parent directory does not exist, the converter's write faults with
`FileNotFoundError` naming that parent directory (no parent creation is
attempted), and the fault becomes the task's failed outcome. -/
theorem c4_converter_write_requires_parent_dir (f pp : FPath) (sk : Bool)
    (fs : FSNode) (w : World) (sz : Nat)
    (h : w.interrupted = false)
    (hsrc : fs.lookup f = some (.file sz))
    (hreadable : w.unreadableCsvs.contains f = false)
    (hnodir : fs.lookup (convDest pp f).dropLast = none) :
    _convert_single_csv_to_parquet f pp sk fs w =
      .raised (.fileNotFound (convDest pp f).dropLast) fs
        [.creatingParquet (convDest pp f)] := by
  have hsplit : convDest pp f =
      (pp ++ [FPath.parentName f]) ++ [stemOfName (FPath.fname f) ++ ".parquet"] := by
    simp [convDest]
  have hdl : (convDest pp f).dropLast = pp ++ [FPath.parentName f] := by
    rw [hsplit, List.dropLast_concat]
  have hdest : fs.lookup (convDest pp f) = none := by
    rw [hsplit, FSNode.lookup_append]
    rw [hdl] at hnodir
    rw [hnodir]
    rfl
  have hexists : fs.pathExists (convDest pp f) = false := by
    simp [FSNode.pathExists, hdest]
  have hread2 : ¬ (f ∈ w.unreadableCsvs) := by
    simpa using hreadable
  unfold _convert_single_csv_to_parquet
  rw [h]
  simp [hexists, readCsv, hsrc, hread2, FSNode.writeNoMkdir, hnodir]

/-- C4 witness: converting `c/t/x.csv` with output root `p` present but
`p/t` absent faults on the write. -/
theorem c4_converter_write_requires_parent_dir_witness :
    _convert_single_csv_to_parquet ["c", "t", "x.csv"] ["p"] true
        (.dir [("c", .dir [("t", .dir [("x.csv", .file 2)])]), ("p", .dir [])])
        ⟨false, false, [], []⟩ =
      .raised (.fileNotFound (convDest ["p"] ["c", "t", "x.csv"]).dropLast)
        (.dir [("c", .dir [("t", .dir [("x.csv", .file 2)])]), ("p", .dir [])])
        [.creatingParquet (convDest ["p"] ["c", "t", "x.csv"])] :=
  c4_converter_write_requires_parent_dir ["c", "t", "x.csv"] ["p"] true
    (.dir [("c", .dir [("t", .dir [("x.csv", .file 2)])]), ("p", .dir [])])
    ⟨false, false, [], []⟩ 2 rfl rfl rfl rfl

/-- Every submitted extraction task produces exactly one outcome. -/
theorem extractOutcomes_length (zp op : FPath) (sk : Bool) (w : World) :
    ∀ (items : List ZipInfo) (fs : FSNode),
    (extractOutcomes zp op sk w items fs).length = items.length := by
  intro items
  induction items with
  | nil => intro fs; rfl
  | cons item rest ih => intro fs; simp [extractOutcomes, ih]

/-- Every submitted conversion task produces exactly one outcome. -/
theorem convertOutcomes_length (pp : FPath) (sk : Bool) (w : World) :
    ∀ (files : List FPath) (fs : FSNode),
    (convertOutcomes pp sk w files fs).length = files.length := by
  intro files
  induction files with
  | nil => intro fs; rfl
  | cons f rest ih => intro fs; simp [convertOutcomes, ih]

/-- Every extraction task contributes at least one log record to the stage
log (its own records, or the stage's error record for its escaped
exception). -/
theorem extract_taskLog_ne_nil (zp : FPath) (item : ZipInfo) (op : FPath)
    (sk : Bool) (fs : FSNode) (w : World) :
    extractTaskLog (_extract_single_zipitem zp item op sk fs w) ≠ [] := by
  unfold _extract_single_zipitem
  dsimp only
  repeat' split
  all_goals simp [extractTaskLog]

/-- Every conversion task contributes at least one log record to the stage
log. -/
theorem convert_taskLog_ne_nil (f pp : FPath) (sk : Bool) (fs : FSNode)
    (w : World) :
    convertTaskLog (_convert_single_csv_to_parquet f pp sk fs w) ≠ [] := by
  unfold _convert_single_csv_to_parquet
  dsimp only
  repeat' split
  all_goals simp [convertTaskLog]

/-- Each member of the extraction outcome list is a task result with a
nonempty log contribution. -/
theorem extractOutcomes_mem_taskLog_ne_nil (zp op : FPath) (sk : Bool)
    (w : World) :
    ∀ (items : List ZipInfo) (fs : FSNode) (r : TaskResult (Option Bool)),
    r ∈ extractOutcomes zp op sk w items fs → extractTaskLog r ≠ [] := by
  intro items
  induction items with
  | nil => intro fs r hr; simp [extractOutcomes] at hr
  | cons item rest ih =>
    intro fs r hr
    simp only [extractOutcomes, List.mem_cons] at hr
    rcases hr with hr | hr
    · subst hr; exact extract_taskLog_ne_nil zp item op sk fs w
    · exact ih _ _ hr

/-- Each member of the conversion outcome list is a task result with a
nonempty log contribution. -/
theorem convertOutcomes_mem_taskLog_ne_nil (pp : FPath) (sk : Bool)
    (w : World) :
    ∀ (files : List FPath) (fs : FSNode) (r : TaskResult Unit),
    r ∈ convertOutcomes pp sk w files fs → convertTaskLog r ≠ [] := by
  intro files
  induction files with
  | nil => intro fs r hr; simp [convertOutcomes] at hr
  | cons f rest ih =>
    intro fs r hr
    simp only [convertOutcomes, List.mem_cons] at hr
    rcases hr with hr | hr
    · subst hr; exact convert_taskLog_ne_nil f pp sk fs w
    · exact ih _ _ hr

/-- C5: without an interrupt, each stage runs one task per item and never
aborts: the extraction stage (once the inventory was read) and the
conversion stage (once the output root was created) both COMPLETE — no
task's fault raises past the stage — the outcome list has exactly one
entry per item whatever faults the individual tasks hit, and every
outcome, failed ones included, contributes its log records to the stage
log in order. -/
theorem c5_partial_failure_isolation (zp op cp pp : FPath) (sk : Bool)
    (w : World) (archive : List ZipInfo) (fsE fsC fs1 : FSNode)
    (h : w.interrupted = false) (hz : w.zipOpenFails = false)
    (hmk : fsC.mkdirNoParents pp = .ok fs1) :
    (extractFromZip zp archive op sk fsE w =
      .completed (extractFinalFS zp op sk w archive fsE)
        (((extractOutcomes zp op sk w archive fsE).map extractTaskLog).flatten
          ++ [.doneExtracting])) ∧
    (extractOutcomes zp op sk w archive fsE).length = archive.length ∧
    (∀ r ∈ extractOutcomes zp op sk w archive fsE, extractTaskLog r ≠ []) ∧
    (convertCsvToParquet cp pp sk fsC w =
      .completed (convertFinalFS pp sk w (discoverCsvFiles fs1 cp) fs1)
        (.convertingCsvs ::
          ((convertOutcomes pp sk w (discoverCsvFiles fs1 cp) fs1).map
            convertTaskLog).flatten)) ∧
    (convertOutcomes pp sk w (discoverCsvFiles fs1 cp) fs1).length =
      (discoverCsvFiles fs1 cp).length ∧
    (∀ r ∈ convertOutcomes pp sk w (discoverCsvFiles fs1 cp) fs1,
      convertTaskLog r ≠ []) := by
  refine ⟨?_, extractOutcomes_length zp op sk w archive fsE,
    fun r hr => extractOutcomes_mem_taskLog_ne_nil zp op sk w archive fsE r hr,
    ?_, convertOutcomes_length pp sk w (discoverCsvFiles fs1 cp) fs1,
    fun r hr =>
      convertOutcomes_mem_taskLog_ne_nil pp sk w (discoverCsvFiles fs1 cp) fs1 r hr⟩
  · unfold extractFromZip
    rw [hz]
    simp only [Bool.false_eq_true, if_false]
    rw [extractLoop_eq zp op sk w h archive fsE []]
    exact rfl
  · unfold convertCsvToParquet
    rw [hmk]
    dsimp only
    rw [convertLoop_eq pp sk w h (discoverCsvFiles fs1 cp) fs1 [.convertingCsvs]]
    exact rfl

/-- C5 witness: two archive members of which exactly the second is corrupt,
and two discovered CSV files of which exactly the first is unreadable; the
stages complete with one logged outcome per item. -/
theorem c5_partial_failure_isolation_witness :
    (extractFromZip ["z.zip"] [⟨["a.csv"], 1⟩, ⟨["b.csv"], 2⟩] ["o"] false
        (.dir [("o", .dir [("a.csv", .file 9), ("b.csv", .file 9)])])
        ⟨false, false, [["b.csv"]], [["c", "t", "x.csv"]]⟩ =
      .completed
        (extractFinalFS ["z.zip"] ["o"] false
          ⟨false, false, [["b.csv"]], [["c", "t", "x.csv"]]⟩
          [⟨["a.csv"], 1⟩, ⟨["b.csv"], 2⟩]
          (.dir [("o", .dir [("a.csv", .file 9), ("b.csv", .file 9)])]))
        (((extractOutcomes ["z.zip"] ["o"] false
            ⟨false, false, [["b.csv"]], [["c", "t", "x.csv"]]⟩
            [⟨["a.csv"], 1⟩, ⟨["b.csv"], 2⟩]
            (.dir [("o", .dir [("a.csv", .file 9), ("b.csv", .file 9)])])).map
              extractTaskLog).flatten
          ++ [.doneExtracting])) ∧
    (extractOutcomes ["z.zip"] ["o"] false
        ⟨false, false, [["b.csv"]], [["c", "t", "x.csv"]]⟩
        [⟨["a.csv"], 1⟩, ⟨["b.csv"], 2⟩]
        (.dir [("o", .dir [("a.csv", .file 9), ("b.csv", .file 9)])])).length =
      ([⟨["a.csv"], 1⟩, ⟨["b.csv"], 2⟩] : List ZipInfo).length ∧
    (∀ r ∈ extractOutcomes ["z.zip"] ["o"] false
        ⟨false, false, [["b.csv"]], [["c", "t", "x.csv"]]⟩
        [⟨["a.csv"], 1⟩, ⟨["b.csv"], 2⟩]
        (.dir [("o", .dir [("a.csv", .file 9), ("b.csv", .file 9)])]),
      extractTaskLog r ≠ []) ∧
    (convertCsvToParquet ["c"] ["p"] false
        (.dir [("c", .dir [("t", .dir [("x.csv", .file 1), ("y.csv", .file 2)])]),
          ("p", .dir [("t", .dir [])])])
        ⟨false, false, [["b.csv"]], [["c", "t", "x.csv"]]⟩ =
      .completed
        (convertFinalFS ["p"] false ⟨false, false, [["b.csv"]], [["c", "t", "x.csv"]]⟩
          (discoverCsvFiles
            (.dir [("c", .dir [("t", .dir [("x.csv", .file 1), ("y.csv", .file 2)])]),
              ("p", .dir [("t", .dir [])])]) ["c"])
          (.dir [("c", .dir [("t", .dir [("x.csv", .file 1), ("y.csv", .file 2)])]),
            ("p", .dir [("t", .dir [])])]))
        (.convertingCsvs ::
          ((convertOutcomes ["p"] false
            ⟨false, false, [["b.csv"]], [["c", "t", "x.csv"]]⟩
            (discoverCsvFiles
              (.dir [("c", .dir [("t", .dir [("x.csv", .file 1), ("y.csv", .file 2)])]),
                ("p", .dir [("t", .dir [])])]) ["c"])
            (.dir [("c", .dir [("t", .dir [("x.csv", .file 1), ("y.csv", .file 2)])]),
              ("p", .dir [("t", .dir [])])])).map convertTaskLog).flatten)) ∧
    (convertOutcomes ["p"] false ⟨false, false, [["b.csv"]], [["c", "t", "x.csv"]]⟩
        (discoverCsvFiles
          (.dir [("c", .dir [("t", .dir [("x.csv", .file 1), ("y.csv", .file 2)])]),
            ("p", .dir [("t", .dir [])])]) ["c"])
        (.dir [("c", .dir [("t", .dir [("x.csv", .file 1), ("y.csv", .file 2)])]),
          ("p", .dir [("t", .dir [])])])).length =
      (discoverCsvFiles
        (.dir [("c", .dir [("t", .dir [("x.csv", .file 1), ("y.csv", .file 2)])]),
          ("p", .dir [("t", .dir [])])]) ["c"]).length ∧
    (∀ r ∈ convertOutcomes ["p"] false
        ⟨false, false, [["b.csv"]], [["c", "t", "x.csv"]]⟩
        (discoverCsvFiles
          (.dir [("c", .dir [("t", .dir [("x.csv", .file 1), ("y.csv", .file 2)])]),
            ("p", .dir [("t", .dir [])])]) ["c"])
        (.dir [("c", .dir [("t", .dir [("x.csv", .file 1), ("y.csv", .file 2)])]),
          ("p", .dir [("t", .dir [])])]),
      convertTaskLog r ≠ []) :=
  c5_partial_failure_isolation ["z.zip"] ["o"] ["c"] ["p"] false
    ⟨false, false, [["b.csv"]], [["c", "t", "x.csv"]]⟩
    [⟨["a.csv"], 1⟩, ⟨["b.csv"], 2⟩]
    (.dir [("o", .dir [("a.csv", .file 9), ("b.csv", .file 9)])])
    (.dir [("c", .dir [("t", .dir [("x.csv", .file 1), ("y.csv", .file 2)])]),
      ("p", .dir [("t", .dir [])])])
    (.dir [("c", .dir [("t", .dir [("x.csv", .file 1), ("y.csv", .file 2)])]),
      ("p", .dir [("t", .dir [])])])
    rfl rfl rfl

/-- A child of a well-formed directory body is well-formed. -/
theorem wfEntries_mem :
    ∀ (es : List (String × FSNode)), wfEntries es = true →
    ∀ {c : String} {v : FSNode}, (c, v) ∈ es → v.wf = true := by
  intro es
  induction es with
  | nil => intro _ c v hmem; simp at hmem
  | cons e rest ih =>
    intro hwf c v hmem
    rw [wfEntries] at hwf
    rw [Bool.and_eq_true] at hwf
    rcases List.mem_cons.mp hmem with heq | hmem'
    · rw [← heq] at hwf
      exact hwf.1
    · exact ih hwf.2 hmem'

/-- In a directory body with pairwise distinct names, `find?` on a name
returns exactly the entry carrying it. -/
theorem find?_eq_some_of_mem_nodup :
    ∀ (es : List (String × FSNode)) (c : String) (v : FSNode),
    (es.map (fun e => e.1)).Nodup → (c, v) ∈ es →
    es.find? (fun e => e.1 == c) = some (c, v) := by
  intro es
  induction es with
  | nil => intro c v _ hmem; simp at hmem
  | cons e rest ih =>
    intro c v hnd hmem
    rw [List.map_cons, List.nodup_cons] at hnd
    rcases List.mem_cons.mp hmem with heq | hmem'
    · rw [← heq]
      exact List.find?_cons_of_pos _ (by simp)
    · have hc : c ∈ rest.map (fun e => e.1) :=
        List.mem_map.mpr ⟨(c, v), hmem', rfl⟩
      have hbe : (e.1 == c) = false := by
        rw [beq_eq_false_iff_ne]
        intro hbeq
        exact hnd.1 (hbeq ▸ hc)
      rw [List.find?_cons]
      simp only [hbe]
      exact ih c v hnd.2 hmem'

/-- What `find?` on a name returns is an entry of the body carrying that
name. -/
theorem find?_key_eq (es : List (String × FSNode)) (c : String)
    (e : String × FSNode)
    (h : es.find? (fun x => x.1 == c) = some e) : e ∈ es ∧ e.1 = c := by
  refine ⟨List.mem_of_find?_eq_some h, ?_⟩
  have h2 := List.find?_some h
  simpa using h2

/-- Membership in the subdirectory part of a directory walk. -/
theorem mem_walkSubdirs :
    ∀ (es : List (String × FSNode)) (cur p : FPath),
    (p ∈ walkSubdirs es cur ↔
      ∃ c es', (c, FSNode.dir es') ∈ es ∧
        p ∈ FSNode.walkFiles (.dir es') (cur ++ [c])) := by
  intro es
  induction es with
  | nil => intro cur p; simp [walkSubdirs]
  | cons e rest ih =>
    intro cur p
    rcases e with ⟨c, child⟩
    cases child with
    | file s =>
      rw [walkSubdirs]
      rw [ih]
      constructor
      · rintro ⟨c', es'', hmem, hm⟩
        exact ⟨c', es'', List.mem_cons_of_mem _ hmem, hm⟩
      · rintro ⟨c', es'', hmem, hm⟩
        rcases List.mem_cons.mp hmem with heq | hmem'
        · simp at heq
        · exact ⟨c', es'', hmem', hm⟩
    | dir es' =>
      rw [walkSubdirs, List.mem_append, ih]
      constructor
      · rintro (hm | ⟨c', es'', hmem, hm⟩)
        · exact ⟨c, es', List.mem_cons_self _ _, hm⟩
        · exact ⟨c', es'', List.mem_cons_of_mem _ hmem, hm⟩
      · rintro ⟨c', es'', hmem, hm⟩
        rcases List.mem_cons.mp hmem with heq | hmem'
        · left
          obtain ⟨h1, h2⟩ : c' = c ∧ FSNode.dir es'' = FSNode.dir es' := by
            constructor
            · exact congrArg Prod.fst heq
            · exact congrArg Prod.snd heq
          rw [← h1, ← h2]
          exact hm
        · right
          exact ⟨c', es'', hmem', hm⟩

/-- Membership in a walk of a well-formed tree: exactly the paths of the
files strictly below the visited node (by strong induction on the tree
size). -/
theorem mem_walkFiles_iff :
    ∀ (k : Nat) (n : FSNode), sizeOf n ≤ k → n.wf = true →
    ∀ (cur p : FPath),
    (p ∈ n.walkFiles cur ↔
      ∃ rest, rest ≠ [] ∧ p = cur ++ rest ∧
        ∃ sz, n.lookup rest = some (.file sz)) := by
  intro k
  induction k with
  | zero =>
    intro n hn
    exfalso
    cases n <;> simp at hn
  | succ k ih =>
    intro n hn hwf cur p
    cases n with
    | file s =>
      rw [FSNode.walkFiles]
      constructor
      · intro hm
        simp at hm
      · rintro ⟨rest, hne, hp, sz, hlk⟩
        cases rest with
        | nil => exact absurd rfl hne
        | cons a as => rw [FSNode.lookup] at hlk; simp at hlk
    | dir es =>
      have hsz : sizeOf es ≤ k := by
        simp at hn
        omega
      have hnd : (es.map (fun e => e.1)).Nodup := by
        rw [FSNode.wf, Bool.and_eq_true, decide_eq_true_eq] at hwf
        exact hwf.1
      have hwfe : wfEntries es = true := by
        rw [FSNode.wf, Bool.and_eq_true] at hwf
        exact hwf.2
      rw [FSNode.walkFiles, List.mem_append]
      constructor
      · intro hm
        rcases hm with hm | hm
        · rw [List.mem_filterMap] at hm
          rcases hm with ⟨e, hmem, he⟩
          rcases e with ⟨c, child⟩
          cases child with
          | dir es' => simp at he
          | file s =>
            simp only [Option.some.injEq] at he
            refine ⟨[c], by simp, he.symm, s, ?_⟩
            rw [FSNode.lookup,
              find?_eq_some_of_mem_nodup es c (.file s) hnd hmem]
            rfl
        · rw [mem_walkSubdirs] at hm
          rcases hm with ⟨c, es', hmem, hm'⟩
          have h1 := List.sizeOf_lt_of_mem hmem
          have hchild_sz : sizeOf (FSNode.dir es') ≤ k := by
            simp at h1 ⊢
            omega
          have hchild_wf : (FSNode.dir es').wf = true := wfEntries_mem es hwfe hmem
          rw [ih (FSNode.dir es') hchild_sz hchild_wf (cur ++ [c]) p] at hm'
          rcases hm' with ⟨rest', hne', hp', sz, hlk'⟩
          refine ⟨c :: rest', by simp, by simpa using hp', sz, ?_⟩
          rw [FSNode.lookup,
            find?_eq_some_of_mem_nodup es c (.dir es') hnd hmem]
          exact hlk'
      · rintro ⟨rest, hne, hp, sz, hlk⟩
        cases rest with
        | nil => exact absurd rfl hne
        | cons c rest' =>
          rw [FSNode.lookup] at hlk
          cases hf : es.find? (fun e => e.1 == c) with
          | none => rw [hf] at hlk; simp at hlk
          | some e =>
            rw [hf] at hlk
            dsimp only at hlk
            obtain ⟨hmem, hkey⟩ := find?_key_eq es c e hf
            rcases e with ⟨c0, child⟩
            dsimp only at hkey hlk
            rw [hkey] at hmem
            cases child with
            | file s =>
              cases rest' with
              | nil =>
                left
                rw [List.mem_filterMap]
                refine ⟨(c, .file s), hmem, ?_⟩
                simp [hp]
              | cons a as =>
                simp [FSNode.lookup] at hlk
            | dir es' =>
              cases rest' with
              | nil =>
                simp [FSNode.lookup] at hlk
              | cons a as =>
                right
                rw [mem_walkSubdirs]
                refine ⟨c, es', hmem, ?_⟩
                have h1 := List.sizeOf_lt_of_mem hmem
                have hchild_sz : sizeOf (FSNode.dir es') ≤ k := by
                  simp at h1 ⊢
                  omega
                have hchild_wf : (FSNode.dir es').wf = true :=
                  wfEntries_mem es hwfe hmem
                rw [ih (FSNode.dir es') hchild_sz hchild_wf (cur ++ [c]) p]
                exact ⟨a :: as, by simp, by simpa using hp, sz, hlk⟩

/-- Every node reachable inside a well-formed tree is well-formed. -/
theorem FSNode.wf_lookup :
    ∀ (q : FPath) (t n : FSNode), t.wf = true → t.lookup q = some n →
    n.wf = true := by
  intro q
  induction q with
  | nil =>
    intro t n hwf hlk
    simp only [FSNode.lookup, Option.some.injEq] at hlk
    rw [← hlk]
    exact hwf
  | cons c rest ih =>
    intro t n hwf hlk
    cases t with
    | file s => simp [FSNode.lookup] at hlk
    | dir es =>
      rw [FSNode.lookup] at hlk
      cases hf : es.find? (fun e => e.1 == c) with
      | none => rw [hf] at hlk; simp at hlk
      | some e =>
        rw [hf] at hlk
        dsimp only at hlk
        obtain ⟨hmem, _⟩ := find?_key_eq es c e hf
        have hwfe : wfEntries es = true := by
          rw [FSNode.wf, Bool.and_eq_true] at hwf
          exact hwf.2
        rcases e with ⟨c0, child⟩
        exact ih child n (wfEntries_mem es hwfe hmem) hlk

/-- A path lies strictly beneath a root exactly when it extends it by a
nonempty remainder. -/
theorem FPath.under_iff (root p : FPath) :
    FPath.under root p = true ↔ ∃ rest, rest ≠ [] ∧ p = root ++ rest := by
  unfold FPath.under
  rw [Bool.and_eq_true, beq_iff_eq, decide_eq_true_eq]
  constructor
  · rintro ⟨htake, hlen⟩
    refine ⟨p.drop root.length, ?_, ?_⟩
    · intro hnil
      have hld := List.length_drop root.length p
      rw [hnil] at hld
      simp at hld
      omega
    · conv_lhs => rw [← List.take_append_drop root.length p]
      rw [htake]
  · rintro ⟨rest, hne, rfl⟩
    constructor
    · exact List.take_left root rest
    · rw [List.length_append]
      have hpos : 0 < rest.length := List.length_pos.mpr hne
      omega

/-- Membership in the file paths yielded by `Path.walk` from a root, over
a well-formed filesystem: exactly the files strictly beneath the root (a
missing or non-directory root yields nothing). -/
theorem mem_walkFrom_iff (fs : FSNode) (root p : FPath)
    (hwf : fs.wf = true) :
    p ∈ fs.walkFrom root ↔
      ((∃ sz, fs.lookup p = some (.file sz)) ∧ FPath.under root p = true) := by
  unfold FSNode.walkFrom
  cases hr : fs.lookup root with
  | none =>
    constructor
    · intro h
      exact absurd h (by simp)
    · rintro ⟨⟨sz, hlk⟩, hund⟩
      rw [FPath.under_iff] at hund
      rcases hund with ⟨rest, hne, rfl⟩
      rw [FSNode.lookup_append, hr] at hlk
      simp at hlk
  | some n =>
    have hnwf := FSNode.wf_lookup root fs n hwf hr
    rw [mem_walkFiles_iff (sizeOf n) n le_rfl hnwf root p, FPath.under_iff]
    constructor
    · rintro ⟨rest, hne, rfl, sz, hlk⟩
      refine ⟨⟨sz, ?_⟩, ⟨rest, hne, rfl⟩⟩
      rw [FSNode.lookup_append, hr]
      exact hlk
    · rintro ⟨⟨sz, hlk⟩, rest, hne, rfl⟩
      rw [FSNode.lookup_append, hr] at hlk
      exact ⟨rest, hne, rfl, sz, hlk⟩

/-- C9: over a well-formed filesystem, File Discovery yields exactly the
regular files strictly beneath the root (at any depth) whose final
component ends with ".csv", and a missing root yields the empty list
rather than a fault. -/
theorem c9_discovery_exactly_csv_files (fs : FSNode) (root p : FPath)
    (hwf : fs.wf = true) :
    (p ∈ discoverCsvFiles fs root ↔
      ((∃ sz, fs.lookup p = some (.file sz)) ∧ FPath.under root p = true ∧
        p.fname.endsWith ".csv" = true)) ∧
    (fs.lookup root = none → discoverCsvFiles fs root = []) := by
  constructor
  · unfold discoverCsvFiles
    rw [List.mem_filter, mem_walkFrom_iff fs root p hwf, and_assoc]
  · intro hr
    unfold discoverCsvFiles FSNode.walkFrom
    rw [hr]
    rfl

/-- C9 witness: a two-level tree in which discovery finds `data/t/a.csv`
(a regular `.csv` file beneath the root) at a concrete input. -/
theorem c9_discovery_exactly_csv_files_witness :
    ((["data", "t", "a.csv"] : FPath) ∈ discoverCsvFiles
        (.dir [("data", .dir [("t", .dir [("a.csv", .file 1), ("b.txt", .file 2)]),
          ("top.csv", .file 3)]), ("other", .dir [])]) ["data"] ↔
      ((∃ sz, FSNode.lookup
          (.dir [("data", .dir [("t", .dir [("a.csv", .file 1), ("b.txt", .file 2)]),
            ("top.csv", .file 3)]), ("other", .dir [])]) ["data", "t", "a.csv"] =
          some (.file sz)) ∧
        FPath.under ["data"] ["data", "t", "a.csv"] = true ∧
        (FPath.fname ["data", "t", "a.csv"]).endsWith ".csv" = true)) ∧
    (FSNode.lookup
        (.dir [("data", .dir [("t", .dir [("a.csv", .file 1), ("b.txt", .file 2)]),
          ("top.csv", .file 3)]), ("other", .dir [])]) ["data"] = none →
      discoverCsvFiles
        (.dir [("data", .dir [("t", .dir [("a.csv", .file 1), ("b.txt", .file 2)]),
          ("top.csv", .file 3)]), ("other", .dir [])]) ["data"] = []) :=
  c9_discovery_exactly_csv_files
    (.dir [("data", .dir [("t", .dir [("a.csv", .file 1), ("b.txt", .file 2)]),
      ("top.csv", .file 3)]), ("other", .dir [])]) ["data"]
    ["data", "t", "a.csv"] (by decide)

end PfunData
